import Mathlib

/-!
Verification of the ticket-resolution pipeline of the Event Ticketing dApp.

The development shallowly embeds two source files:
  * `frontend/src/utils/fallbackImageUtils.js` — the pure fallback-image
    selection policy (`getEventFallbackImage`, `getTicketFallbackImage`);
  * `frontend/src/components/MyTickets.jsx` — the ticket resolution pass
    (`fetchUserTickets`), the date sort, the status buckets and the image
    resolution of `renderTicketCard` (including the `onError` recovery
    handler).

JavaScript values are modelled as follows: token ids reaching these
functions are the results of `tokenId.toNumber()` on ERC-721 ids, hence
non-negative integers (`Nat`); the string branch `ticketId === '0'` and the
`typeof ticketId === 'number'` guards of the source collapse under this
typing.  Possibly-absent object fields are `Option`; JS string truthiness
(empty string is falsy) is modelled explicitly.  Fallible external calls
(contract reads, metadata fetch) are oracles returning `Option`, `none`
standing for a thrown error.
-/

/-! ### fallbackImageUtils.js : the constant image tables -/

def DEFAULT_EVENT_IMAGES : List String :=
  [ "https://cdn.pixabay.com/photo/2016/11/23/15/48/audience-1853662_1280.jpg"
  , "https://cdn.pixabay.com/photo/2016/11/22/19/15/hand-1850120_1280.jpg"
  , "https://cdn.pixabay.com/photo/2017/07/21/23/57/concert-2527495_1280.jpg"
  , "https://cdn.pixabay.com/photo/2016/11/29/06/17/audience-1867754_1280.jpg"
  , "https://cdn.pixabay.com/photo/2017/01/06/23/03/sunrise-1959227_1280.jpg" ]

def DEFAULT_TICKET_IMAGES : List String :=
  [ "https://img.freepik.com/free-vector/realistic-concert-entrance-tickets-set_1017-30605.jpg"
  , "https://img.freepik.com/free-vector/realistic-golden-ticket-template_52683-35936.jpg"
  , "https://img.freepik.com/free-vector/cinema-tickets-set_1017-30634.jpg"
  , "https://img.freepik.com/free-vector/realistic-concert-entrance-tickets-set_1017-30605.jpg"
  , "https://img.freepik.com/free-vector/realistic-concert-entrance-tickets-set_1017-30605.jpg" ]

def CULTURAL_TICKET_IMAGES : List String :=
  [ "https://img.freepik.com/free-photo/traditional-cultural-dance-performance-stage_53876-138776.jpg"
  , "https://img.freepik.com/free-photo/group-people-traditional-indian-clothes_23-2149064512.jpg"
  , "https://img.freepik.com/free-photo/woman-dancing-traditional-chinese-clothing_23-2149064502.jpg"
  , "https://img.freepik.com/free-photo/african-american-jazz-musician-playing-trumpet_23-2149071755.jpg"
  , "https://img.freepik.com/free-photo/traditional-mexican-hat-with-decorations_23-2149067702.jpg" ]

/-! ### fallbackImageUtils.js : the selection policy -/

/-- The event-descriptor object handed to `getTicketFallbackImage`.
`name` and `description` are possibly-absent JS fields. -/
structure EventDesc where
  eventId : Nat
  name : Option String
  description : Option String
deriving DecidableEq

/-- JS string truthiness of a possibly-absent string field:
`undefined` and the empty string are falsy. -/
def jsTruthy : Option String → Bool
  | none => false
  | some s => !(s == "")

/-- `toLowerCase()` modelled character-wise (ASCII case folding, which is
exact for the ASCII needle "cultural" and the address strings compared). -/
def jsToLower (s : String) : String :=
  String.mk (s.data.map Char.toLower)

/-- `s.toLowerCase().includes('cultural')` of the source. -/
def strContainsCultural (s : String) : Bool :=
  decide ("cultural".toList <:+: (jsToLower s).toList)

/-- The cultural-event test of `getTicketFallbackImage` (source lines 64-65):
`event.name && event.name.toLowerCase().includes('cultural') ||
 (event.description && event.description.toLowerCase().includes('cultural'))`.
`&&` binds tighter than `||` in JS, so this is a disjunction of the two
guarded tests. -/
def culturalMatch (e : EventDesc) : Bool :=
  (jsTruthy e.name && strContainsCultural (e.name.getD "")) ||
  (jsTruthy e.description && strContainsCultural (e.description.getD ""))

/-- `getEventFallbackImage` of fallbackImageUtils.js. -/
def getEventFallbackImage (event : Option EventDesc) : String :=
  match event with
  | none => DEFAULT_EVENT_IMAGES.getD 0 ""
  | some e => DEFAULT_EVENT_IMAGES.getD (e.eventId % DEFAULT_EVENT_IMAGES.length) ""

/-- `getTicketFallbackImage` of fallbackImageUtils.js.  The missing-event
guard `if (!event)` is evaluated first; then the `ticketId === 0` special
case; then the cultural-event test; the ticket id is numeric here, so the
`=== '0'` and `typeof` branches of the source collapse. -/
def getTicketFallbackImage (event : Option EventDesc) (ticketId : Nat) : String :=
  match event with
  | none => DEFAULT_TICKET_IMAGES.getD 0 ""
  | some e =>
    if ticketId = 0 then
      CULTURAL_TICKET_IMAGES.getD 0 ""
    else if culturalMatch e then
      CULTURAL_TICKET_IMAGES.getD (ticketId % CULTURAL_TICKET_IMAGES.length) ""
    else
      DEFAULT_TICKET_IMAGES.getD (ticketId % DEFAULT_TICKET_IMAGES.length) ""

/-- The image-load-error recovery handler of `renderTicketCard`
(MyTickets.jsx lines 154-163): on `onError` it sets the image to a
hard-coded URL depending only on the token id. -/
def onErrorFallbackImage (tokenId : Nat) : String :=
  if tokenId = 0 then
    "https://img.freepik.com/free-photo/traditional-cultural-dance-performance-stage_53876-138776.jpg"
  else
    "https://img.freepik.com/free-vector/realistic-concert-entrance-tickets-set_1017-30605.jpg"

/-! ### Claims about the fallback-image policy -/

/-- C2: for every event descriptor (any name and description content),
`getTicketFallbackImage` at tokenId 0 returns the first entry of the
cultural table — the fixed cultural showcase image — whether or not the
event matches the cultural rule. -/
theorem ticket_zero_gets_cultural_showcase (e : EventDesc) :
    getTicketFallbackImage (some e) 0 = CULTURAL_TICKET_IMAGES.getD 0 "" ∧
    getTicketFallbackImage (some e) 0 =
      "https://img.freepik.com/free-photo/traditional-cultural-dance-performance-stage_53876-138776.jpg" := by
  constructor <;> rfl

/-- C2 witness at a concrete cultural-looking event. -/
theorem ticket_zero_gets_cultural_showcase_witness :
    getTicketFallbackImage (some ⟨1, some "Spring Festival", some "Cultural celebration"⟩) 0 =
      "https://img.freepik.com/free-photo/traditional-cultural-dance-performance-stage_53876-138776.jpg" :=
  (ticket_zero_gets_cultural_showcase ⟨1, some "Spring Festival", some "Cultural celebration"⟩).2

/-- C3: for every event descriptor and non-zero tokenId `n`, a cultural
match selects `CULTURAL_TICKET_IMAGES[n mod 5]`, a non-match selects
`DEFAULT_TICKET_IMAGES[n mod 5]`, and the function is deterministic on
identical inputs. -/
theorem nonzero_ticket_fallback_selection (e : EventDesc) (n : Nat) (hn : n ≠ 0) :
    (culturalMatch e = true →
      getTicketFallbackImage (some e) n =
        CULTURAL_TICKET_IMAGES.getD (n % CULTURAL_TICKET_IMAGES.length) "") ∧
    (culturalMatch e = false →
      getTicketFallbackImage (some e) n =
        DEFAULT_TICKET_IMAGES.getD (n % DEFAULT_TICKET_IMAGES.length) "") ∧
    getTicketFallbackImage (some e) n = getTicketFallbackImage (some e) n := by
  refine ⟨fun hc => ?_, fun hc => ?_, rfl⟩ <;>
    simp [getTicketFallbackImage, hn, hc]

/-- C3 witness: a cultural event with tokenId 7 lands on cultural image
7 mod 5 = 2, and a plain event with tokenId 7 on default image 2. -/
theorem nonzero_ticket_fallback_selection_witness :
    (7 : Nat) ≠ 0 ∧
    (culturalMatch ⟨3, some "Cultural Night", none⟩ = true →
      getTicketFallbackImage (some ⟨3, some "Cultural Night", none⟩) 7 =
        CULTURAL_TICKET_IMAGES.getD (7 % CULTURAL_TICKET_IMAGES.length) "") ∧
    (culturalMatch ⟨3, some "Rock Concert", none⟩ = false →
      getTicketFallbackImage (some ⟨3, some "Rock Concert", none⟩) 7 =
        DEFAULT_TICKET_IMAGES.getD (7 % DEFAULT_TICKET_IMAGES.length) "") :=
  ⟨by decide,
   (nonzero_ticket_fallback_selection ⟨3, some "Cultural Night", none⟩ 7 (by decide)).1,
   (nonzero_ticket_fallback_selection ⟨3, some "Rock Concert", none⟩ 7 (by decide)).2.1⟩

/-- C10: with the event argument absent, `getTicketFallbackImage` returns
the first default ticket image for every tokenId — also at tokenId 0,
where the cultural showcase image is NOT chosen, because the missing-event
guard fires before the tokenId-0 rule. -/
theorem missing_event_yields_first_default (n : Nat) :
    getTicketFallbackImage none n = DEFAULT_TICKET_IMAGES.getD 0 "" ∧
    getTicketFallbackImage none 0 ≠ CULTURAL_TICKET_IMAGES.getD 0 "" := by
  exact ⟨rfl, by decide⟩

/-- C1 counterexample: for the (non-cultural) event named "Music Night"
and tokenId 1, the error-recovery handler picks the first default image
while `getTicketFallbackImage` picks the second (1 mod 5 = 1): the two
call sites disagree. -/
theorem onError_disagrees_with_selector :
    onErrorFallbackImage 1 ≠
      getTicketFallbackImage (some ⟨1, some "Music Night", some "A concert"⟩) 1 := by
  decide

/-- C1 amended: the error-recovery handler depends only on the token id —
the cultural showcase image at tokenId 0 and the first default ticket
image otherwise; it agrees with `getTicketFallbackImage` at tokenId 0
whenever the event descriptor is present, but not in general for non-zero
token ids. -/
theorem onError_fixed_images (e : EventDesc) (n : Nat) :
    onErrorFallbackImage 0 = getTicketFallbackImage (some e) 0 ∧
    (n ≠ 0 → onErrorFallbackImage n =
      "https://img.freepik.com/free-vector/realistic-concert-entrance-tickets-set_1017-30605.jpg") := by
  refine ⟨rfl, fun hn => ?_⟩
  simp [onErrorFallbackImage, hn]

/-! ### MyTickets.jsx : data model of the resolution pass -/

/-- A `Transfer` event returned by `queryFilter` (only the fields the pass
reads). -/
structure TransferEvent where
  fromAddr : String
  toAddr : String
  tokenId : Nat
deriving DecidableEq

/-- The per-token mutable state returned by `getTicket`. -/
structure TicketState where
  eventId : Nat
  used : Bool
  locked : Bool
deriving DecidableEq

/-- The event record returned by `getEvent`. -/
structure EventInfo where
  name : String
  date : Int
deriving DecidableEq

/-- Off-chain metadata (the fields the component reads; a field absent in
the fetched JSON is the empty string). -/
structure Metadata where
  name : String
  description : String
  image : String
deriving DecidableEq

/-- The record pushed onto `userTickets` for each retained token. -/
structure TicketRecord where
  tokenId : Nat
  eventId : Nat
  eventName : String
  eventDate : Int
  used : Bool
  locked : Bool
  metadata : Metadata
deriving DecidableEq

/-- The external calls `fetchUserTickets` performs per token, as oracles;
`none` models a thrown error / rejected promise.  `fetchMetadata` bundles
the URI translation, the HTTP fetch and the JSON parse keyed on the token
URI: `none` models failure of any of the three. -/
structure Chain where
  ownerOf : Nat → Option String
  getTicket : Nat → Option TicketState
  getEvent : Nat → Option EventInfo
  getTokenURI : Nat → Option String
  fetchMetadata : String → Option Metadata

/-- The placeholder metadata substituted when the metadata fetch fails
(MyTickets.jsx lines 63-67). -/
def placeholderMetadata (tokenId : Nat) : Metadata :=
  { name := "Ticket #" ++ toString tokenId
  , description := "Metadata unavailable"
  , image := "" }

/-- The body of the per-token loop of `fetchUserTickets` (lines 37-84):
ownership check with case-insensitive comparison, detail fetches, metadata
fetch with local placeholder recovery; `none` is a skipped token (either
the `continue` on ownership mismatch or the per-token `catch`). -/
def processToken (ch : Chain) (account : String) (tokenId : Nat) : Option TicketRecord :=
  match ch.ownerOf tokenId with
  | none => none
  | some currentOwner =>
    if jsToLower currentOwner = jsToLower account then
      match ch.getTicket tokenId with
      | none => none
      | some ticket =>
        match ch.getEvent ticket.eventId with
        | none => none
        | some event =>
          match ch.getTokenURI tokenId with
          | none => none
          | some uri =>
            some { tokenId := tokenId
                 , eventId := ticket.eventId
                 , eventName := event.name
                 , eventDate := event.date
                 , used := ticket.used
                 , locked := ticket.locked
                 , metadata := (ch.fetchMetadata uri).getD (placeholderMetadata tokenId) }
    else
      none

/-- `[...new Set(xs)]` of line 32: deduplication keeping the first
occurrence of each element, preserving first-occurrence order. -/
def jsSetDedup : List Nat → List Nat
  | [] => []
  | a :: l => a :: jsSetDedup (l.filter (fun b => !(b == a)))
termination_by l => l.length
decreasing_by
  simp only [List.length_cons]
  exact Nat.lt_succ_of_le (List.length_filter_le _ _)

/-- Comparison key of the sort on line 87:
`(a, b) => a.eventDate - b.eventDate`. -/
def dateLE (a b : TicketRecord) : Prop := a.eventDate ≤ b.eventDate

instance : DecidableRel dateLE :=
  fun a b => inferInstanceAs (Decidable (a.eventDate ≤ b.eventDate))

instance : IsTotal TicketRecord dateLE := ⟨fun _ _ => Int.le_total _ _⟩

instance : IsTrans TicketRecord dateLE := ⟨fun _ _ _ => Int.le_trans⟩

/-- `userTickets.sort((a, b) => a.eventDate - b.eventDate)`: per the
ECMAScript specification `Array.prototype.sort` with this comparator is a
stable sort by ascending `eventDate`; all stable sorts by a total preorder
agree, and insertion sort (inserting each element before the strictly
greater tail elements) is such a stable sort. -/
def sortTickets (l : List TicketRecord) : List TicketRecord :=
  l.insertionSort dateLE

/-- The whole happy-path body of `fetchUserTickets` after the event-log
query succeeded: dedup the recipient token ids, run the per-token loop
collecting retained records in order, then sort by event date. -/
def fetchUserTickets (ch : Chain) (account : String) (events : List TransferEvent) :
    List TicketRecord :=
  sortTickets ((jsSetDedup (events.map (·.tokenId))).filterMap (processToken ch account))

/-- `isUpcoming` (line 114): `new Date(date) > new Date()` with `now` made
an explicit parameter. -/
def isUpcoming (date now : Int) : Bool := now < date

/-- `tickets.filter(ticket => isUpcoming(ticket.eventDate) && !ticket.used)`. -/
def upcomingTickets (tickets : List TicketRecord) (now : Int) : List TicketRecord :=
  tickets.filter (fun t => isUpcoming t.eventDate now && !t.used)

/-- `tickets.filter(ticket => ticket.used)`. -/
def usedTickets (tickets : List TicketRecord) : List TicketRecord :=
  tickets.filter (fun t => t.used)

/-- `tickets.filter(ticket => !isUpcoming(ticket.eventDate) && !ticket.used)`. -/
def expiredTickets (tickets : List TicketRecord) (now : Int) : List TicketRecord :=
  tickets.filter (fun t => !isUpcoming t.eventDate now && !t.used)

/-- Modelled from the spec: `ipfsToHttp` lives in
`frontend/src/utils/ipfsUtils.js`, which is not among the provided source
files; per spec section 6 it translates a content-addressed `ipfs://`
locator into a fetchable HTTP gateway URL and leaves other locators
usable as-is. -/
def ipfsToHttp (uri : String) : String :=
  if uri.startsWith "ipfs://" then
    "https://ipfs.io/ipfs/" ++ (uri.drop 7)
  else
    uri

/-- The `src` expression of the ticket image in `renderTicketCard`
(lines 142-152): the translated metadata image when that string is truthy
(non-empty), else the fallback selector applied to the event descriptor
rebuilt from the record (`description: ticket.metadata.description || ''`
is the identity here since an absent description is already `""`). -/
def displayedImage (t : TicketRecord) : String :=
  if t.metadata.image = "" then
    getTicketFallbackImage
      (some { eventId := t.eventId
            , name := some t.eventName
            , description := some t.metadata.description }) t.tokenId
  else
    ipfsToHttp t.metadata.image

/-! ### Helper lemmas -/

theorem getD_mod_mem (tbl : List String) (h : 0 < tbl.length) (i : Nat) :
    tbl.getD (i % tbl.length) "" ∈ tbl := by
  have hm : i % tbl.length < tbl.length := Nat.mod_lt _ h
  rw [List.getD_eq_getElem?_getD, List.getElem?_eq_getElem hm, Option.getD_some]
  exact List.getElem_mem hm

theorem string_append_ne_empty {a : String} (b : String) (h : a ≠ "") : a ++ b ≠ "" := by
  intro he
  apply h
  cases a with
  | mk da =>
    cases b with
    | mk db =>
      have hd : da ++ db = [] := congrArg String.data he
      have hda : da = [] := (List.append_eq_nil.mp hd).1
      rw [hda]

/-- The fallback selector is total and never yields the empty string. -/
theorem getTicketFallbackImage_ne_empty (event : Option EventDesc) (n : Nat) :
    getTicketFallbackImage event n ≠ "" := by
  cases event with
  | none => exact (by decide : DEFAULT_TICKET_IMAGES.getD 0 "" ≠ "")
  | some e =>
    rw [getTicketFallbackImage]
    by_cases h0 : n = 0
    · simp only [if_pos h0]
      decide
    · rw [if_neg h0]
      by_cases hc : culturalMatch e
      · rw [if_pos hc]
        intro he
        have hmem := getD_mod_mem CULTURAL_TICKET_IMAGES (by decide) n
        rw [he] at hmem
        exact absurd hmem (by decide)
      · rw [if_neg hc]
        intro he
        have hmem := getD_mod_mem DEFAULT_TICKET_IMAGES (by decide) n
        rw [he] at hmem
        exact absurd hmem (by decide)

theorem ipfsToHttp_ne_empty {uri : String} (h : uri ≠ "") : ipfsToHttp uri ≠ "" := by
  rw [ipfsToHttp]
  by_cases hs : uri.startsWith "ipfs://"
  · rw [if_pos hs]
    exact string_append_ne_empty _ (by decide)
  · rw [if_neg hs]
    exact h

/-! ### Claims about the presentation boundary -/

/-- C4: the displayed image locator of every rendered ticket record is a
non-empty string: the translated `metadata.image` when that field is
non-empty, otherwise the output of `getTicketFallbackImage`, which itself
never yields the empty string. -/
theorem displayed_image_resolution (t : TicketRecord) :
    displayedImage t ≠ "" ∧
    (t.metadata.image ≠ "" → displayedImage t = ipfsToHttp t.metadata.image) ∧
    (t.metadata.image = "" →
      displayedImage t =
        getTicketFallbackImage
          (some { eventId := t.eventId, name := some t.eventName,
                  description := some t.metadata.description }) t.tokenId) ∧
    (∀ (e : Option EventDesc) (n : Nat), getTicketFallbackImage e n ≠ "") := by
  refine ⟨?_, fun h => by rw [displayedImage, if_neg h], fun h => by rw [displayedImage, if_pos h],
    getTicketFallbackImage_ne_empty⟩
  by_cases h : t.metadata.image = ""
  · rw [displayedImage, if_pos h]
    exact getTicketFallbackImage_ne_empty _ _
  · rw [displayedImage, if_neg h]
    exact ipfsToHttp_ne_empty h

/-- C5: for every resolved ticket list and every current time, the three
status buckets are an exact partition — their concatenation is a
permutation of the full list (no omission, no duplication), every ticket
lies in exactly one bucket, and a used ticket with a strictly future
event date lands in the Used bucket, not Upcoming. -/
theorem bucket_partition (tickets : List TicketRecord) (now : Int) :
    (upcomingTickets tickets now ++ usedTickets tickets ++ expiredTickets tickets now).Perm
      tickets ∧
    (∀ t ∈ tickets,
      (t ∈ upcomingTickets tickets now ∧ t ∉ usedTickets tickets ∧
        t ∉ expiredTickets tickets now) ∨
      (t ∉ upcomingTickets tickets now ∧ t ∈ usedTickets tickets ∧
        t ∉ expiredTickets tickets now) ∨
      (t ∉ upcomingTickets tickets now ∧ t ∉ usedTickets tickets ∧
        t ∈ expiredTickets tickets now)) ∧
    (∀ t ∈ tickets, t.used = true → now < t.eventDate →
      t ∈ usedTickets tickets ∧ t ∉ upcomingTickets tickets now) := by
  refine ⟨?_, ?_, ?_⟩
  · have hud : (usedTickets tickets ++ List.filter (fun t => !t.used) tickets).Perm tickets :=
      List.filter_append_perm _ tickets
    have hue : (upcomingTickets tickets now ++ expiredTickets tickets now).Perm
        (List.filter (fun t => !t.used) tickets) := by
      have h2 := List.filter_append_perm (fun t => isUpcoming t.eventDate now)
        (List.filter (fun t => !t.used) tickets)
      rw [List.filter_filter, List.filter_filter] at h2
      exact h2
    have hswap : (upcomingTickets tickets now ++ usedTickets tickets ++
        expiredTickets tickets now).Perm
        (usedTickets tickets ++ (upcomingTickets tickets now ++ expiredTickets tickets now)) := by
      rw [List.append_assoc]
      refine List.perm_append_comm.trans ?_
      rw [List.append_assoc]
      exact List.Perm.append_left _ List.perm_append_comm
    exact hswap.trans ((List.Perm.append_left _ hue).trans hud)
  · intro t ht
    by_cases hu : t.used = true
    · exact Or.inr (Or.inl (by
        simp [upcomingTickets, usedTickets, expiredTickets, List.mem_filter, ht, hu]))
    · replace hu : t.used = false := by simpa using hu
      by_cases hup : now < t.eventDate
      · exact Or.inl (by
          simp [upcomingTickets, usedTickets, expiredTickets, List.mem_filter, ht, hu,
            isUpcoming, hup])
      · exact Or.inr (Or.inr (by
          simp [upcomingTickets, usedTickets, expiredTickets, List.mem_filter, ht, hu,
            isUpcoming, hup]))
  · intro t ht hu hup
    constructor
    · simp [usedTickets, List.mem_filter, ht, hu]
    · simp [upcomingTickets, List.mem_filter, ht, hu, isUpcoming]

/-! ### Stability of the date sort -/

theorem filter_takeWhile_nil {c q : TicketRecord → Bool} {m : List TicketRecord}
    (h : ∀ b, c b = true → q b = false) : (m.takeWhile c).filter q = [] := by
  rw [List.filter_eq_nil_iff]
  intro b hb
  have hc := List.mem_takeWhile_imp hb
  simp [h b hc]

theorem filter_orderedInsert_of_neg (q : TicketRecord → Bool) (x : TicketRecord)
    (m : List TicketRecord) (hx : q x = false) :
    (List.orderedInsert dateLE x m).filter q = m.filter q := by
  rw [List.orderedInsert_eq_take_drop, List.filter_append, List.filter_cons, hx]
  simp only [Bool.false_eq_true, if_false]
  rw [← List.filter_append, List.takeWhile_append_dropWhile]

theorem filter_orderedInsert_of_pos (q : TicketRecord → Bool) (x : TicketRecord)
    (m : List TicketRecord) (hx : q x = true)
    (hconst : ∀ b, q b = true → b.eventDate = x.eventDate) :
    (List.orderedInsert dateLE x m).filter q = x :: m.filter q := by
  have hc : ∀ b : TicketRecord, (decide (¬ dateLE x b)) = true → q b = false := by
    intro b hb
    by_contra hq
    have hqb : q b = true := by simpa using hq
    exact (of_decide_eq_true hb) (le_of_eq (hconst b hqb).symm)
  have hsplit : m.takeWhile (fun b => decide (¬ dateLE x b)) ++
      m.dropWhile (fun b => decide (¬ dateLE x b)) = m :=
    List.takeWhile_append_dropWhile _ m
  have hm : m.filter q = (m.dropWhile fun b => decide (¬ dateLE x b)).filter q := by
    conv_lhs => rw [← hsplit]
    rw [List.filter_append, filter_takeWhile_nil hc, List.nil_append]
  rw [List.orderedInsert_eq_take_drop, List.filter_append, filter_takeWhile_nil hc,
    List.nil_append, List.filter_cons, hx, hm]
  simp

theorem filter_sortTickets_of_dateConst (q : TicketRecord → Bool)
    (hconst : ∀ a b, q a = true → q b = true → a.eventDate = b.eventDate) :
    ∀ l : List TicketRecord, (sortTickets l).filter q = l.filter q := by
  intro l
  induction l with
  | nil => rfl
  | cons x l ih =>
    have hstep : sortTickets (x :: l) = List.orderedInsert dateLE x (sortTickets l) := rfl
    rw [hstep]
    by_cases hx : q x = true
    · rw [filter_orderedInsert_of_pos q x _ hx (fun b hb => hconst b x hb hx), ih,
        List.filter_cons, hx]
      simp
    · have hx2 : q x = false := by simpa using hx
      rw [filter_orderedInsert_of_neg q x _ hx2, ih, List.filter_cons, hx2]
      simp

/-! ### Claim about bucket ordering -/

/-- C9: each of the three buckets computed from the sorted resolved list is
non-decreasing in `eventDate`, and within any fixed event date the records
of each bucket appear in their original (pre-sort, resolution-order) order:
the sort is stable and the bucket order is determined by the sort alone. -/
theorem buckets_sorted_and_stable (l : List TicketRecord) (now : Int) :
    ((upcomingTickets (sortTickets l) now).Sorted dateLE ∧
     (usedTickets (sortTickets l)).Sorted dateLE ∧
     (expiredTickets (sortTickets l) now).Sorted dateLE) ∧
    (∀ d : Int,
      (upcomingTickets (sortTickets l) now).filter (fun t => t.eventDate == d) =
        (upcomingTickets l now).filter (fun t => t.eventDate == d) ∧
      (usedTickets (sortTickets l)).filter (fun t => t.eventDate == d) =
        (usedTickets l).filter (fun t => t.eventDate == d) ∧
      (expiredTickets (sortTickets l) now).filter (fun t => t.eventDate == d) =
        (expiredTickets l now).filter (fun t => t.eventDate == d)) := by
  have hsorted : (sortTickets l).Sorted dateLE := List.sorted_insertionSort dateLE l
  have stab : ∀ (p : TicketRecord → Bool) (d : Int),
      ((sortTickets l).filter p).filter (fun t => t.eventDate == d) =
        (l.filter p).filter (fun t => t.eventDate == d) := by
    intro p d
    rw [List.filter_filter, List.filter_filter]
    apply filter_sortTickets_of_dateConst
    intro a b ha hb
    have ha2 : (a.eventDate == d) = true := ((Bool.and_eq_true _ _).mp ha).1
    have hb2 : (b.eventDate == d) = true := ((Bool.and_eq_true _ _).mp hb).1
    exact (eq_of_beq ha2).trans (eq_of_beq hb2).symm
  exact ⟨⟨List.Pairwise.filter _ hsorted, List.Pairwise.filter _ hsorted,
    List.Pairwise.filter _ hsorted⟩,
    fun d => ⟨stab _ d, stab _ d, stab _ d⟩⟩

/-! ### Properties of the per-token pipeline -/

/-- The ownership filter of lines 39-44 as a predicate: the current-owner
lookup returned an address equal, case-insensitively, to the queried
account. -/
def ownerMatches (ch : Chain) (account : String) (t : Nat) : Bool :=
  match ch.ownerOf t with
  | some o => jsToLower o == jsToLower account
  | none => false

theorem processToken_tokenId {ch : Chain} {account : String} {s : Nat} {r : TicketRecord}
    (h : processToken ch account s = some r) : r.tokenId = s := by
  cases ho : ch.ownerOf s with
  | none => simp [processToken, ho] at h
  | some o =>
    by_cases hm : jsToLower o = jsToLower account
    · cases ht : ch.getTicket s with
      | none => simp [processToken, ho, hm, ht] at h
      | some st =>
        cases he : ch.getEvent st.eventId with
        | none => simp [processToken, ho, hm, ht, he] at h
        | some ev =>
          cases hu : ch.getTokenURI s with
          | none => simp [processToken, ho, hm, ht, he, hu] at h
          | some uri =>
            simp only [processToken, ho, hm, ht, he, hu, if_true, Option.some.injEq] at h
            rw [← h]
    · simp [processToken, ho, hm] at h

theorem processToken_isSome_iff (ch : Chain) (account : String) (t : Nat)
    (hTicket : (ch.getTicket t).isSome = true)
    (hEvent : ∀ i, (ch.getEvent i).isSome = true)
    (hURI : (ch.getTokenURI t).isSome = true) :
    (processToken ch account t).isSome = ownerMatches ch account t := by
  cases ho : ch.ownerOf t with
  | none => simp [processToken, ownerMatches, ho]
  | some o =>
    by_cases hm : jsToLower o = jsToLower account
    · cases ht : ch.getTicket t with
      | none => rw [ht] at hTicket; exact absurd hTicket (by simp)
      | some st =>
        cases he : ch.getEvent st.eventId with
        | none =>
          have h2 := hEvent st.eventId
          rw [he] at h2
          exact absurd h2 (by simp)
        | some ev =>
          cases hu : ch.getTokenURI t with
          | none => rw [hu] at hURI; exact absurd hURI (by simp)
          | some uri => simp [processToken, ownerMatches, ho, ht, he, hu, hm]
    · simp [processToken, ownerMatches, ho, hm, beq_eq_false_iff_ne]

theorem mem_jsSetDedup (t : Nat) : ∀ l : List Nat, t ∈ jsSetDedup l ↔ t ∈ l := by
  intro l
  induction l using jsSetDedup.induct with
  | case1 => simp [jsSetDedup]
  | case2 a l ih =>
    rw [jsSetDedup]
    by_cases hta : t = a
    · subst hta
      simp
    · simp [ih, List.mem_filter, hta]

theorem nodup_jsSetDedup : ∀ l : List Nat, (jsSetDedup l).Nodup := by
  intro l
  induction l using jsSetDedup.induct with
  | case1 => simp [jsSetDedup]
  | case2 a l ih =>
    rw [jsSetDedup]
    refine List.nodup_cons.mpr ⟨?_, ih⟩
    intro hmem
    have h2 := (mem_jsSetDedup a _).mp hmem
    simp [List.mem_filter] at h2

theorem map_tokenId_filterMap (ch : Chain) (account : String) :
    ∀ L : List Nat, (L.filterMap (processToken ch account)).map (fun r => r.tokenId) =
      L.filter (fun s => (processToken ch account s).isSome) := by
  intro L
  induction L with
  | nil => rfl
  | cons a L ih =>
    rw [List.filterMap_cons, List.filter_cons]
    cases hp : processToken ch account a with
    | none => simp [ih]
    | some r =>
      have hr : r.tokenId = a := processToken_tokenId hp
      simp [ih, hr]

/-! ### Claims about the resolution pass -/

/-- C7: assuming the per-token state, descriptor and URI lookups succeed,
the resolved set holds exactly one record per distinct tokenId occurring in
the transfer log whose current owner equals the queried address
case-insensitively: the token ids of the result are duplicate-free, and a
token id is present iff it occurs in the log and its ownership check
matches. -/
theorem resolved_set_characterization (ch : Chain) (account : String)
    (events : List TransferEvent)
    (hTicket : ∀ t, (ch.getTicket t).isSome = true)
    (hEvent : ∀ i, (ch.getEvent i).isSome = true)
    (hURI : ∀ t, (ch.getTokenURI t).isSome = true) :
    ((fetchUserTickets ch account events).map (fun r => r.tokenId)).Nodup ∧
    ∀ t : Nat, t ∈ (fetchUserTickets ch account events).map (fun r => r.tokenId) ↔
      (t ∈ events.map (fun e => e.tokenId) ∧ ownerMatches ch account t = true) := by
  have hmap := map_tokenId_filterMap ch account (jsSetDedup (events.map (fun e => e.tokenId)))
  have hperm : ((fetchUserTickets ch account events).map (fun r => r.tokenId)).Perm
      (((jsSetDedup (events.map (fun e => e.tokenId))).filterMap
        (processToken ch account)).map (fun r => r.tokenId)) :=
    List.Perm.map _ (List.perm_insertionSort dateLE _)
  rw [hmap] at hperm
  constructor
  · exact hperm.nodup_iff.mpr (List.Nodup.filter _ (nodup_jsSetDedup _))
  · intro t
    rw [hperm.mem_iff, List.mem_filter, mem_jsSetDedup,
      processToken_isSome_iff ch account t (hTicket t) hEvent (hURI t)]

/-- Concrete environment for the witnesses: every lookup succeeds, the
account owns every token except tokenId 9. -/
def wChain : Chain :=
  { ownerOf := fun t => some (if t == 9 then "0xOTHER" else "0xABC")
  , getTicket := fun _ => some ⟨1, false, false⟩
  , getEvent := fun _ => some ⟨"Expo", 100⟩
  , getTokenURI := fun _ => some "ipfs://meta"
  , fetchMetadata := fun _ => some ⟨"Name", "Desc", "img"⟩ }

/-- Transfer log of the spec's worked example: transfers to the address
for tokens 3, 7, 9, with token 3 transferred twice. -/
def wEvents : List TransferEvent :=
  [ ⟨"0x0", "0xABC", 3⟩, ⟨"0x0", "0xABC", 7⟩, ⟨"0x0", "0xABC", 9⟩, ⟨"0x0", "0xABC", 3⟩ ]

/-- C7 witness: the spec example — the log names {3, 7, 9}, token 9 is
owned by someone else, and the characterization applies. -/
theorem resolved_set_characterization_witness :
    (∀ t, (wChain.getTicket t).isSome = true) ∧
    (∀ i, (wChain.getEvent i).isSome = true) ∧
    (∀ t, (wChain.getTokenURI t).isSome = true) ∧
    (((fetchUserTickets wChain "0xabc" wEvents).map (fun r => r.tokenId)).Nodup ∧
      ∀ t : Nat, t ∈ (fetchUserTickets wChain "0xabc" wEvents).map (fun r => r.tokenId) ↔
        (t ∈ wEvents.map (fun e => e.tokenId) ∧ ownerMatches wChain "0xabc" t = true)) :=
  ⟨fun _ => rfl, fun _ => rfl, fun _ => rfl,
    resolved_set_characterization wChain "0xabc" wEvents
      (fun _ => rfl) (fun _ => rfl) (fun _ => rfl)⟩

/-- C6: when everything else about a candidate token succeeds but its
metadata fetch fails, the token is still resolved, and its record carries
exactly the placeholder metadata
`{name: "Ticket #<tokenId>", description: "Metadata unavailable", image: ""}`:
the failure never leaves the metadata-resolution boundary. -/
theorem metadata_failure_placeholder (ch : Chain) (account : String)
    (events : List TransferEvent) (t : Nat) (currentOwner : String)
    (st : TicketState) (ev : EventInfo) (uri : String)
    (hmem : t ∈ events.map (fun e => e.tokenId))
    (hOwn : ch.ownerOf t = some currentOwner)
    (hMatch : jsToLower currentOwner = jsToLower account)
    (hTicket : ch.getTicket t = some st)
    (hEvent : ch.getEvent st.eventId = some ev)
    (hURI : ch.getTokenURI t = some uri)
    (hFail : ch.fetchMetadata uri = none) :
    ∃ r ∈ fetchUserTickets ch account events,
      r.tokenId = t ∧
      r.metadata = { name := "Ticket #" ++ toString t
                   , description := "Metadata unavailable"
                   , image := "" } := by
  have hp : processToken ch account t =
      some { tokenId := t, eventId := st.eventId, eventName := ev.name,
             eventDate := ev.date, used := st.used, locked := st.locked,
             metadata := placeholderMetadata t } := by
    simp [processToken, hOwn, hMatch, hTicket, hEvent, hURI, hFail]
  refine ⟨{ tokenId := t, eventId := st.eventId, eventName := ev.name,
            eventDate := ev.date, used := st.used, locked := st.locked,
            metadata := placeholderMetadata t }, ?_, rfl, rfl⟩
  rw [fetchUserTickets, sortTickets, List.mem_insertionSort]
  exact List.mem_filterMap.mpr ⟨t, (mem_jsSetDedup t _).mpr hmem, hp⟩

/-- Environment for the C6 witness: all contract reads succeed but every
metadata fetch fails. -/
def wChainNoMeta : Chain :=
  { ownerOf := fun _ => some "0xABC"
  , getTicket := fun _ => some ⟨1, false, false⟩
  , getEvent := fun _ => some ⟨"Expo", 100⟩
  , getTokenURI := fun _ => some "ipfs://meta"
  , fetchMetadata := fun _ => none }

/-- Transfer log naming only tokenId 5, the spec's example token. -/
def wEventsFive : List TransferEvent := [⟨"0x9", "0xABC", 5⟩]

/-- C6 witness: the spec example — the metadata fetch for tokenId 5 fails,
and the resolved record carries the placeholder metadata. -/
theorem metadata_failure_placeholder_witness :
    5 ∈ wEventsFive.map (fun e => e.tokenId) ∧
    wChainNoMeta.ownerOf 5 = some "0xABC" ∧
    jsToLower "0xABC" = jsToLower "0xabc" ∧
    wChainNoMeta.getTicket 5 = some ⟨1, false, false⟩ ∧
    wChainNoMeta.getEvent (1 : Nat) = some ⟨"Expo", 100⟩ ∧
    wChainNoMeta.getTokenURI 5 = some "ipfs://meta" ∧
    wChainNoMeta.fetchMetadata "ipfs://meta" = none ∧
    ∃ r ∈ fetchUserTickets wChainNoMeta "0xabc" wEventsFive,
      r.tokenId = 5 ∧
      r.metadata = { name := "Ticket #" ++ toString (5 : Nat)
                   , description := "Metadata unavailable"
                   , image := "" } :=
  ⟨by decide, rfl, by decide, rfl, rfl, rfl, rfl,
    metadata_failure_placeholder wChainNoMeta "0xabc" wEventsFive 5 "0xABC"
      ⟨1, false, false⟩ ⟨"Expo", 100⟩ "ipfs://meta"
      (by decide) rfl (by decide) rfl rfl rfl rfl⟩

/-- Skipping a failed token never touches the other candidates. -/
theorem processToken_eq_none_of_lookup_failure (ch : Chain) (account : String) (t : Nat)
    (h : ch.ownerOf t = none ∨ ch.getTicket t = none ∨
      (∀ st, ch.getTicket t = some st → ch.getEvent st.eventId = none)) :
    processToken ch account t = none := by
  rcases h with h | h | h
  · simp [processToken, h]
  · cases ho : ch.ownerOf t with
    | none => simp [processToken, ho]
    | some o =>
      by_cases hm : jsToLower o = jsToLower account
      · simp [processToken, ho, hm, h]
      · simp [processToken, ho, hm]
  · cases ho : ch.ownerOf t with
    | none => simp [processToken, ho]
    | some o =>
      by_cases hm : jsToLower o = jsToLower account
      · cases ht : ch.getTicket t with
        | none => simp [processToken, ho, hm, ht]
        | some st => simp [processToken, ho, hm, ht, h st ht]
      · simp [processToken, ho, hm]

theorem filterMap_processToken_agree (ch1 ch2 : Chain) (account : String) (t : Nat)
    (hAgree : ∀ s, s ≠ t → processToken ch1 account s = processToken ch2 account s)
    (hnone : processToken ch1 account t = none) :
    ∀ L : List Nat, L.filterMap (processToken ch1 account) =
      (L.filterMap (processToken ch2 account)).filter (fun r => !(r.tokenId == t)) := by
  intro L
  induction L with
  | nil => rfl
  | cons a L ih =>
    by_cases hat : a = t
    · subst hat
      rw [List.filterMap_cons, List.filterMap_cons, hnone]
      cases hp : processToken ch2 account a with
      | none => exact ih
      | some r =>
        have hr : r.tokenId = a := processToken_tokenId hp
        rw [List.filter_cons]
        simp [hr, ih]
    · rw [List.filterMap_cons, List.filterMap_cons, hAgree a hat]
      cases hp : processToken ch2 account a with
      | none => exact ih
      | some r =>
        have hr : r.tokenId = a := processToken_tokenId hp
        rw [List.filter_cons]
        simp [hr, hat, ih]

/-- C8: if the ownership check, ticket-state fetch or event-descriptor
fetch of one candidate token fails, only that token is missing from the
result; the pass still completes and the records of every other candidate
are exactly those of a pass in which that token is the only difference. -/
theorem per_token_failure_isolated (ch1 ch2 : Chain) (account : String)
    (events : List TransferEvent) (t : Nat)
    (hAgree : ∀ s, s ≠ t → processToken ch1 account s = processToken ch2 account s)
    (hFail : ch1.ownerOf t = none ∨ ch1.getTicket t = none ∨
      (∀ st, ch1.getTicket t = some st → ch1.getEvent st.eventId = none)) :
    (∀ r ∈ fetchUserTickets ch1 account events, r.tokenId ≠ t) ∧
    (fetchUserTickets ch1 account events).Perm
      ((fetchUserTickets ch2 account events).filter (fun r => !(r.tokenId == t))) := by
  have hnone := processToken_eq_none_of_lookup_failure ch1 account t hFail
  have hkey := filterMap_processToken_agree ch1 ch2 account t hAgree hnone
    (jsSetDedup (events.map (fun e => e.tokenId)))
  have hp1 : (fetchUserTickets ch1 account events).Perm
      ((jsSetDedup (events.map (fun e => e.tokenId))).filterMap (processToken ch1 account)) :=
    List.perm_insertionSort dateLE _
  have hp2 : ((jsSetDedup (events.map (fun e => e.tokenId))).filterMap
      (processToken ch2 account)).Perm (fetchUserTickets ch2 account events) :=
    (List.perm_insertionSort dateLE _).symm
  constructor
  · intro r hr hrt
    have hr2 : r ∈ (jsSetDedup (events.map (fun e => e.tokenId))).filterMap
        (processToken ch1 account) := hp1.mem_iff.mp hr
    obtain ⟨s, hs, hps⟩ := List.mem_filterMap.mp hr2
    have hst : s = t := by rw [← processToken_tokenId hps, hrt]
    rw [hst, hnone] at hps
    exact Option.noConfusion hps
  · have h3 : (fetchUserTickets ch1 account events).Perm
        (((jsSetDedup (events.map (fun e => e.tokenId))).filterMap
          (processToken ch2 account)).filter (fun r => !(r.tokenId == t))) := by
      rw [← hkey]
      exact hp1
    exact h3.trans (List.Perm.filter _ hp2)

/-- Environment for the C8 witnesses: identical to `wChain` on every
token, but the ticket-state fetch for tokenId 2 fails. -/
def wChainDrop : Chain :=
  { wChain with getTicket := fun t => if t == 2 then none else wChain.getTicket t }

/-- Transfer log naming tokens 1 and 2. -/
def wEventsPair : List TransferEvent := [⟨"0x9", "0xABC", 1⟩, ⟨"0x9", "0xABC", 2⟩]

/-- C8 witness: dropping tokenId 2 (its `getTicket` fails) removes exactly
that token and leaves the record of token 1 intact. -/
theorem per_token_failure_isolated_witness :
    (∀ s : Nat, s ≠ 2 → processToken wChainDrop "0xabc" s = processToken wChain "0xabc" s) ∧
    (wChainDrop.ownerOf 2 = none ∨ wChainDrop.getTicket 2 = none ∨
      (∀ st, wChainDrop.getTicket 2 = some st → wChainDrop.getEvent st.eventId = none)) ∧
    ((∀ r ∈ fetchUserTickets wChainDrop "0xabc" wEventsPair, r.tokenId ≠ 2) ∧
      (fetchUserTickets wChainDrop "0xabc" wEventsPair).Perm
        ((fetchUserTickets wChain "0xabc" wEventsPair).filter (fun r => !(r.tokenId == 2)))) := by
  have hA : ∀ s : Nat, s ≠ 2 → processToken wChainDrop "0xabc" s = processToken wChain "0xabc" s := by
    intro s hs
    simp [processToken, wChainDrop, wChain, hs]
  exact ⟨hA, Or.inr (Or.inl rfl),
    per_token_failure_isolated wChainDrop wChain "0xabc" wEventsPair 2 hA
      (Or.inr (Or.inl rfl))⟩
